import Mathlib

/-!
Shallow embedding of the Mergington High School activities API
(`src/app.py`): a FastAPI application whose state is a SQLite database
with two tables, `activity` and `participant`.  The database is modelled
as a `Store` holding the rows of each table in insertion (rowid) order.
Each HTTP handler is modelled as a pure function from the store to the
store after the transaction together with the HTTP outcome: a raised
`HTTPException` closes the session without committing, so on every error
the returned store is the input store unchanged.
-/

set_option maxHeartbeats 1000000

namespace Mergington

/-- Row of the `activity` table (`class Activity` in `app.py`).  The
autoincrement `id` column is represented by the position in
`Store.activities`. -/
structure Activity where
  name : String
  description : String
  schedule : String
  max_participants : Int
deriving DecidableEq, Repr

/-- Row of the `participant` table (`class Participant` in `app.py`). -/
structure Participant where
  email : String
  activity_name : String
deriving DecidableEq, Repr

/-- The database: both tables, rows in insertion (rowid) order. -/
structure Store where
  activities : List Activity
  participants : List Participant
deriving DecidableEq, Repr

/-- A raised `fastapi.HTTPException`. -/
structure HTTPError where
  status_code : Nat
  detail : String
deriving DecidableEq, Repr

deriving instance DecidableEq for Except

/-- Result of one request: `ok` carries the JSON `message` string. -/
abbrev ApiResult := Except HTTPError String

/-- The query `session.exec(select(Activity).where(Activity.name == activity_name)).first()`. -/
def getActivity (s : Store) (activity_name : String) : Option Activity :=
  s.activities.find? (fun a => a.name == activity_name)

/-- The query `session.exec(select(Participant).where(Participant.activity_name == activity_name, Participant.email == email)).first()`. -/
def findEnrollment (s : Store) (activity_name email : String) : Option Participant :=
  s.participants.find? (fun p => p.activity_name == activity_name && p.email == email)

/-- The count `len(session.exec(select(Participant).where(Participant.activity_name == activity_name)).all())`. -/
def countFor (s : Store) (activity_name : String) : Nat :=
  (s.participants.filter (fun p => p.activity_name == activity_name)).length

/-- The participant emails selected for one activity by `get_activities`,
in rowid (insertion) order. -/
def roster (s : Store) (activity_name : String) : List String :=
  (s.participants.filter (fun p => p.activity_name == activity_name)).map (fun p => p.email)

/-- The seed data `SEED_ACTIVITIES` of `app.py`: each activity together
with its initial participant emails. -/
def SEED_ACTIVITIES : List (Activity × List String) := [
  (⟨"Chess Club", "Learn strategies and compete in chess tournaments",
    "Fridays, 3:30 PM - 5:00 PM", 12⟩,
   ["michael@mergington.edu", "daniel@mergington.edu"]),
  (⟨"Programming Class", "Learn programming fundamentals and build software projects",
    "Tuesdays and Thursdays, 3:30 PM - 4:30 PM", 20⟩,
   ["emma@mergington.edu", "sophia@mergington.edu"]),
  (⟨"Gym Class", "Physical education and sports activities",
    "Mondays, Wednesdays, Fridays, 2:00 PM - 3:00 PM", 30⟩,
   ["john@mergington.edu", "olivia@mergington.edu"]),
  (⟨"Soccer Team", "Join the school soccer team and compete in matches",
    "Tuesdays and Thursdays, 4:00 PM - 5:30 PM", 22⟩,
   ["liam@mergington.edu", "noah@mergington.edu"]),
  (⟨"Basketball Team", "Practice and play basketball with the school team",
    "Wednesdays and Fridays, 3:30 PM - 5:00 PM", 15⟩,
   ["ava@mergington.edu", "mia@mergington.edu"]),
  (⟨"Art Club", "Explore your creativity through painting and drawing",
    "Thursdays, 3:30 PM - 5:00 PM", 15⟩,
   ["amelia@mergington.edu", "harper@mergington.edu"]),
  (⟨"Drama Club", "Act, direct, and produce plays and performances",
    "Mondays and Wednesdays, 4:00 PM - 5:30 PM", 20⟩,
   ["ella@mergington.edu", "scarlett@mergington.edu"]),
  (⟨"Math Club", "Solve challenging problems and participate in math competitions",
    "Tuesdays, 3:30 PM - 4:30 PM", 10⟩,
   ["james@mergington.edu", "benjamin@mergington.edu"]),
  (⟨"Debate Team", "Develop public speaking and argumentation skills",
    "Fridays, 4:00 PM - 5:30 PM", 12⟩,
   ["charlotte@mergington.edu", "henry@mergington.edu"])]

/-- The function `seed_database` of `app.py`: if any `Activity` row
exists (`select(Activity)).first()` is truthy) it returns immediately;
otherwise it inserts every seed activity followed by its participants
and commits. -/
def seed_database (s : Store) : Store :=
  match s.activities with
  | _ :: _ => s
  | [] =>
    { activities := SEED_ACTIVITIES.map Prod.fst,
      participants := s.participants ++
        SEED_ACTIVITIES.flatMap (fun ap => ap.2.map (fun e => ⟨e, ap.1.name⟩)) }

/-- The handler `signup_for_activity` of `app.py`.  Returns the database
state after the request together with the HTTP outcome; a raised
`HTTPException` means the session closed without commit, leaving the
database unchanged. -/
def signup_for_activity (s : Store) (activity_name email : String) : Store × ApiResult :=
  match getActivity s activity_name with
  | none => (s, .error ⟨404, "Activity not found"⟩)
  | some activity =>
    match findEnrollment s activity_name email with
    | some _ => (s, .error ⟨400, "Student is already signed up"⟩)
    | none =>
      if (countFor s activity_name : Int) ≥ activity.max_participants then
        (s, .error ⟨400, "Activity is full"⟩)
      else
        ({ s with participants := s.participants ++ [⟨email, activity_name⟩] },
         .ok ("Signed up " ++ email ++ " for " ++ activity_name))

/-- The handler `unregister_from_activity` of `app.py`.
`session.delete(participant)` deletes the row returned by `.first()`,
i.e. the first matching row; this is `List.eraseP` with the same
predicate as the query. -/
def unregister_from_activity (s : Store) (activity_name email : String) : Store × ApiResult :=
  match getActivity s activity_name with
  | none => (s, .error ⟨404, "Activity not found"⟩)
  | some _ =>
    match findEnrollment s activity_name email with
    | none => (s, .error ⟨400, "Student is not signed up for this activity"⟩)
    | some _ =>
      ({ s with participants :=
           s.participants.eraseP (fun p => p.activity_name == activity_name && p.email == email) },
       .ok ("Unregistered " ++ email ++ " from " ++ activity_name))

/-- The JSON object built by `_activity_to_dict` in `app.py`. -/
structure ActivityView where
  description : String
  schedule : String
  max_participants : Int
  participants : List String
deriving DecidableEq, Repr

/-- The helper `_activity_to_dict` of `app.py`. -/
def activity_to_dict (activity : Activity) (participants : List String) : ActivityView :=
  { description := activity.description,
    schedule := activity.schedule,
    max_participants := activity.max_participants,
    participants := participants }

/-- The handler `get_activities` of `app.py`: a JSON object keyed by
activity name, modelled as an association list in table order. -/
def get_activities (s : Store) : List (String × ActivityView) :=
  s.activities.map (fun activity =>
    (activity.name, activity_to_dict activity (roster s activity.name)))

/-- The empty database (fresh `database.db` after `create_db_and_tables`). -/
def emptyStore : Store := ⟨[], []⟩

/-- States of the database reachable by the operations the application
can perform: seeding (run at startup), signup and unregister. -/
inductive Reachable : Store → Prop where
  | empty : Reachable emptyStore
  | seed {s : Store} : Reachable s → Reachable (seed_database s)
  | signup {s : Store} (activity_name email : String) :
      Reachable s → Reachable (signup_for_activity s activity_name email).1
  | unregister {s : Store} (activity_name email : String) :
      Reachable s → Reachable (unregister_from_activity s activity_name email).1

/-- The result of seeding the empty database. -/
def seededStore : Store := seed_database emptyStore

example : (signup_for_activity (seed_database emptyStore) "Chess Club" "new@mergington.edu").2
    = .ok "Signed up new@mergington.edu for Chess Club" := by decide

example : (signup_for_activity (seed_database emptyStore) "Unknown Club" "a@b.edu").2
    = .error ⟨404, "Activity not found"⟩ := by decide

example : (signup_for_activity (seed_database emptyStore) "Chess Club" "michael@mergington.edu").2
    = .error ⟨400, "Student is already signed up"⟩ := by decide

example : (unregister_from_activity (seed_database emptyStore) "Chess Club" "michael@mergington.edu").2
    = .ok "Unregistered michael@mergington.edu from Chess Club" := by decide

example : roster (seed_database emptyStore) "Chess Club"
    = ["michael@mergington.edu", "daniel@mergington.edu"] := by decide

/-! ### Invariants of reachable stores -/

/-- Activity names are unique (the `unique=True` column constraint). -/
def NamesNodup (s : Store) : Prop :=
  (s.activities.map (fun a => a.name)).Nodup

/-- Referential integrity: every participant row references an existing
activity (the `foreign_key` on `Participant.activity_name`). -/
def RefIntegrity (s : Store) : Prop :=
  ∀ p ∈ s.participants, ∃ a ∈ s.activities, a.name = p.activity_name

/-- Capacity: no activity has more enrollments than `max_participants`. -/
def CapacityOK (s : Store) : Prop :=
  ∀ a ∈ s.activities, (countFor s a.name : Int) ≤ a.max_participants

/-- No two participant rows share the same (activity, email) pair. -/
def NoDupEnrollment (s : Store) : Prop :=
  s.participants.Pairwise
    (fun p q => ¬(p.activity_name = q.activity_name ∧ p.email = q.email))

/-- The conjunction of the data-model invariants. -/
structure Inv (s : Store) : Prop where
  namesNodup : NamesNodup s
  refIntegrity : RefIntegrity s
  capacity : CapacityOK s
  noDup : NoDupEnrollment s

theorem getActivity_eq_some {s : Store} {an : String} {a : Activity}
    (h : getActivity s an = some a) : a ∈ s.activities ∧ a.name = an := by
  refine ⟨List.mem_of_find?_eq_some h, ?_⟩
  have hp := List.find?_some h
  simpa using hp

theorem findEnrollment_eq_none_iff {s : Store} {an em : String} :
    findEnrollment s an em = none ↔
      ∀ p ∈ s.participants, ¬(p.activity_name = an ∧ p.email = em) := by
  unfold findEnrollment
  rw [List.find?_eq_none]
  constructor
  · intro h p hp
    have := h p hp
    simpa using this
  · intro h p hp
    have := h p hp
    simpa using this

theorem countFor_append_single (acts : List Activity) (ps : List Participant)
    (q : Participant) (n : String) :
    countFor ⟨acts, ps ++ [q]⟩ n =
      countFor ⟨acts, ps⟩ n + (if q.activity_name = n then 1 else 0) := by
  by_cases h : q.activity_name = n <;>
    simp [countFor, List.filter_append, h]

theorem countFor_congr_participants {s t : Store} (h : s.participants = t.participants)
    (n : String) : countFor s n = countFor t n := by
  unfold countFor
  rw [h]

/-- Injectivity of `Activity.name` on the catalog, from `NamesNodup`. -/
theorem name_inj {s : Store} (h : NamesNodup s) {a b : Activity}
    (ha : a ∈ s.activities) (hb : b ∈ s.activities) (hn : a.name = b.name) :
    a = b :=
  List.inj_on_of_nodup_map h ha hb hn

theorem inv_emptyStore : Inv emptyStore :=
  ⟨by unfold NamesNodup; decide, by unfold RefIntegrity; decide,
   by unfold CapacityOK; decide, by unfold NoDupEnrollment; decide⟩

theorem inv_seededStore : Inv seededStore :=
  ⟨by unfold NamesNodup; decide, by unfold RefIntegrity; decide,
   by unfold CapacityOK; decide, by unfold NoDupEnrollment; decide⟩

theorem seed_database_of_ne_nil {s : Store} (h : s.activities ≠ []) :
    seed_database s = s := by
  unfold seed_database
  cases hs : s.activities with
  | nil => exact absurd hs h
  | cons a rest => rfl

theorem inv_seed {s : Store} (h : Inv s) : Inv (seed_database s) := by
  by_cases hnil : s.activities = []
  · have hps : s.participants = [] := by
      cases hps : s.participants with
      | nil => rfl
      | cons p rest =>
        rcases h.refIntegrity p (by rw [hps]; exact List.mem_cons_self p rest) with ⟨a, ha, _⟩
        rw [hnil] at ha
        exact absurd ha (List.not_mem_nil a)
    have hs : s = emptyStore := by
      cases s
      simp_all [emptyStore]
    rw [hs]
    exact inv_seededStore
  · rw [seed_database_of_ne_nil hnil]
    exact h

theorem countFor_snoc (s : Store) (q : Participant) (n : String) :
    countFor { s with participants := s.participants ++ [q] } n =
      countFor s n + (if q.activity_name = n then 1 else 0) := by
  by_cases h : q.activity_name = n <;>
    simp [countFor, List.filter_append, h]

theorem inv_signup {s : Store} (activity_name email : String) (h : Inv s) :
    Inv (signup_for_activity s activity_name email).1 := by
  unfold signup_for_activity
  split
  · exact h
  · rename_i activity hact
    split
    · exact h
    · rename_i henr
      split
      · exact h
      · rename_i hcap
        rcases getActivity_eq_some hact with ⟨hmem, hname⟩
        refine ⟨h.namesNodup, ?_, ?_, ?_⟩
        · intro p hp
          rcases List.mem_append.mp hp with hp | hp
          · exact h.refIntegrity p hp
          · rcases List.mem_singleton.mp hp with rfl
            exact ⟨activity, hmem, hname⟩
        · intro a ha
          rw [show ({ s with participants := s.participants ++ [⟨email, activity_name⟩] }
                : Store).activities = s.activities from rfl] at ha
          rw [countFor_snoc]
          by_cases hn : (⟨email, activity_name⟩ : Participant).activity_name = a.name
          · have haeq : activity = a :=
              name_inj h.namesNodup hmem ha (hname.trans hn)
            rw [if_pos hn]
            have hx : a.name = activity_name := by rw [← haeq, hname]
            rw [hx, ← haeq]
            have hlt : (countFor s activity_name : Int) < activity.max_participants :=
              lt_of_not_ge hcap
            push_cast
            omega
          · rw [if_neg hn]
            simpa using h.capacity a ha
        · unfold NoDupEnrollment
          rw [show ({ s with participants := s.participants ++ [⟨email, activity_name⟩] }
                : Store).participants = s.participants ++ [⟨email, activity_name⟩] from rfl]
          rw [List.pairwise_append]
          refine ⟨h.noDup, List.pairwise_singleton _ _, ?_⟩
          intro p hp q hq
          rcases List.mem_singleton.mp hq with rfl
          exact findEnrollment_eq_none_iff.mp henr p hp

theorem countFor_eraseP_le (s : Store) (f : Participant → Bool) (n : String) :
    countFor { s with participants := s.participants.eraseP f } n ≤ countFor s n := by
  unfold countFor
  exact ((s.participants.eraseP_sublist).filter _).length_le

theorem inv_unregister {s : Store} (activity_name email : String) (h : Inv s) :
    Inv (unregister_from_activity s activity_name email).1 := by
  unfold unregister_from_activity
  split
  · exact h
  · rename_i activity hact
    split
    · exact h
    · rename_i p henr
      have hsub : List.Sublist (s.participants.eraseP
          (fun q => q.activity_name == activity_name && q.email == email)) s.participants :=
        s.participants.eraseP_sublist
      refine ⟨h.namesNodup, ?_, ?_, ?_⟩
      · intro q hq
        exact h.refIntegrity q (hsub.subset hq)
      · intro a ha
        exact le_trans (Int.ofNat_le.mpr (countFor_eraseP_le s _ a.name)) (h.capacity a ha)
      · exact h.noDup.sublist hsub

/-- Every state the application can reach satisfies all four invariants. -/
theorem reachable_inv {s : Store} (h : Reachable s) : Inv s := by
  induction h with
  | empty => exact inv_emptyStore
  | seed _ ih => exact inv_seed ih
  | signup an em _ ih => exact inv_signup an em ih
  | unregister an em _ ih => exact inv_unregister an em ih

theorem length_filter_le_one_of_noDup {l : List Participant}
    (h : l.Pairwise (fun p q => ¬(p.activity_name = q.activity_name ∧ p.email = q.email)))
    (an em : String) :
    (l.filter (fun p => p.activity_name == an && p.email == em)).length ≤ 1 := by
  have hpair := h.filter (fun p => p.activity_name == an && p.email == em)
  rcases hf : l.filter (fun p => p.activity_name == an && p.email == em) with _ | ⟨p, rest⟩
  · simp [hf]
  · rcases rest with _ | ⟨q, rest2⟩
    · simp [hf]
    · exfalso
      rw [hf] at hpair
      have hpq := (List.pairwise_cons.mp hpair).1 q (List.mem_cons_self q rest2)
      have hp : p.activity_name = an ∧ p.email = em := by
        have : p ∈ l.filter (fun p => p.activity_name == an && p.email == em) := by
          rw [hf]; exact List.mem_cons_self p (q :: rest2)
        have := (List.mem_filter.mp this).2
        simpa using this
      have hq : q.activity_name = an ∧ q.email = em := by
        have : q ∈ l.filter (fun p => p.activity_name == an && p.email == em) := by
          rw [hf]; exact List.mem_cons_of_mem p (List.mem_cons_self q rest2)
        have := (List.mem_filter.mp this).2
        simpa using this
      exact hpq ⟨hp.1.trans hq.1.symm, hp.2.trans hq.2.symm⟩

/-! ### Claims -/

/-- C1: `signup_for_activity` checks its three preconditions in order,
each short-circuiting on failure: unknown activity gives 404
"Activity not found"; an existing enrollment for the pair gives 400
"Student is already signed up"; a full activity gives 400
"Activity is full"; otherwise the call succeeds, appends exactly one
participant row for (email, activity_name), and returns the confirmation
message.  In every failing case the store is returned unchanged. -/
theorem signup_checks_in_order (s : Store) (activity_name email : String) :
    (getActivity s activity_name = none →
      signup_for_activity s activity_name email
        = (s, .error ⟨404, "Activity not found"⟩))
  ∧ (∀ a, getActivity s activity_name = some a →
      (findEnrollment s activity_name email).isSome →
      signup_for_activity s activity_name email
        = (s, .error ⟨400, "Student is already signed up"⟩))
  ∧ (∀ a, getActivity s activity_name = some a →
      findEnrollment s activity_name email = none →
      (countFor s activity_name : Int) ≥ a.max_participants →
      signup_for_activity s activity_name email
        = (s, .error ⟨400, "Activity is full"⟩))
  ∧ (∀ a, getActivity s activity_name = some a →
      findEnrollment s activity_name email = none →
      (countFor s activity_name : Int) < a.max_participants →
      signup_for_activity s activity_name email
        = ({ s with participants := s.participants ++ [⟨email, activity_name⟩] },
           .ok ("Signed up " ++ email ++ " for " ++ activity_name))) := by
  refine ⟨?_, ?_, ?_, ?_⟩
  · intro h
    simp only [signup_for_activity, h]
  · intro a ha hsome
    rw [Option.isSome_iff_exists] at hsome
    rcases hsome with ⟨p, hp⟩
    simp only [signup_for_activity, ha, hp]
  · intro a ha hnone hge
    simp only [signup_for_activity, ha, hnone]
    rw [if_pos hge]
  · intro a ha hnone hlt
    simp only [signup_for_activity, ha, hnone]
    rw [if_neg (not_le.mpr hlt)]

/-- Witness for C1: concrete instances of the 404 branch (empty store)
and of the success branch (a one-activity store with a free slot). -/
theorem signup_checks_in_order_witness :
    signup_for_activity emptyStore "Chess Club" "a@b.edu"
      = (emptyStore, .error ⟨404, "Activity not found"⟩)
  ∧ signup_for_activity ⟨[⟨"A", "d", "sch", 2⟩], []⟩ "A" "x@e"
      = (⟨[⟨"A", "d", "sch", 2⟩], [⟨"x@e", "A"⟩]⟩, .ok "Signed up x@e for A") :=
  ⟨(signup_checks_in_order emptyStore "Chess Club" "a@b.edu").1 (by decide),
   (signup_checks_in_order ⟨[⟨"A", "d", "sch", 2⟩], []⟩ "A" "x@e").2.2.2
     ⟨"A", "d", "sch", 2⟩ (by decide) (by decide) (by decide)⟩

/-- C2: capacity invariant — in every reachable store, every activity's
enrollment count is at most its `max_participants`. -/
theorem capacity_invariant {s : Store} (h : Reachable s) :
    ∀ a ∈ s.activities, (countFor s a.name : Int) ≤ a.max_participants :=
  (reachable_inv h).capacity

/-- Witness for C2: the seeded store is reachable and Chess Club's
enrollment count is within its capacity of 12. -/
theorem capacity_invariant_witness :
    (countFor seededStore "Chess Club" : Int) ≤ 12 :=
  capacity_invariant (Reachable.seed Reachable.empty)
    ⟨"Chess Club", "Learn strategies and compete in chess tournaments",
     "Fridays, 3:30 PM - 5:00 PM", 12⟩ (by decide)

/-- C3: uniqueness invariant — in every reachable store, at most one
participant row exists for any (activity_name, email) pair. -/
theorem uniqueness_invariant {s : Store} (h : Reachable s)
    (activity_name email : String) :
    (s.participants.filter
      (fun p => p.activity_name == activity_name && p.email == email)).length ≤ 1 :=
  length_filter_le_one_of_noDup (reachable_inv h).noDup activity_name email

/-- Witness for C3: at most one Chess Club enrollment for michael in the
seeded store. -/
theorem uniqueness_invariant_witness :
    (seededStore.participants.filter
      (fun p => p.activity_name == "Chess Club" && p.email == "michael@mergington.edu")).length
      ≤ 1 :=
  uniqueness_invariant (Reachable.seed Reachable.empty) "Chess Club" "michael@mergington.edu"

/-- C4: `unregister_from_activity` fails with 404 "Activity not found"
when the activity is unknown; with 400 "Student is not signed up for
this activity" when no matching enrollment exists; and otherwise
succeeds, deleting exactly the one matching participant row (the store
shrinks by one row) and returning the confirmation message.  In every
failing case the store is returned unchanged. -/
theorem unregister_checks_in_order (s : Store) (activity_name email : String) :
    (getActivity s activity_name = none →
      unregister_from_activity s activity_name email
        = (s, .error ⟨404, "Activity not found"⟩))
  ∧ (∀ a, getActivity s activity_name = some a →
      findEnrollment s activity_name email = none →
      unregister_from_activity s activity_name email
        = (s, .error ⟨400, "Student is not signed up for this activity"⟩))
  ∧ (∀ a p, getActivity s activity_name = some a →
      findEnrollment s activity_name email = some p →
      unregister_from_activity s activity_name email
        = ({ s with participants := s.participants.eraseP (fun q => q.activity_name == activity_name && q.email == email) },
           .ok ("Unregistered " ++ email ++ " from " ++ activity_name))
      ∧ (s.participants.eraseP
          (fun q => q.activity_name == activity_name && q.email == email)).length + 1
          = s.participants.length) := by
  refine ⟨?_, ?_, ?_⟩
  · intro h
    simp only [unregister_from_activity, h]
  · intro a ha hnone
    simp only [unregister_from_activity, ha, hnone]
  · intro a p ha hp
    refine ⟨by simp only [unregister_from_activity, ha, hp], ?_⟩
    have hp' : s.participants.find?
        (fun q => q.activity_name == activity_name && q.email == email) = some p := hp
    have hpa := @List.find?_some Participant
      (fun q => q.activity_name == activity_name && q.email == email) p s.participants hp'
    exact List.length_eraseP_add_one (List.mem_of_find?_eq_some hp') hpa

/-- Witness for C4: concrete instances of the 404 branch and of the
successful deletion branch. -/
theorem unregister_checks_in_order_witness :
    unregister_from_activity emptyStore "Chess Club" "a@b.edu"
      = (emptyStore, .error ⟨404, "Activity not found"⟩)
  ∧ unregister_from_activity ⟨[⟨"A", "d", "sch", 2⟩], [⟨"x@e", "A"⟩]⟩ "A" "x@e"
      = (⟨[⟨"A", "d", "sch", 2⟩], []⟩, .ok "Unregistered x@e from A")
  ∧ (([⟨"x@e", "A"⟩] : List Participant).eraseP
      (fun q => q.activity_name == "A" && q.email == "x@e")).length + 1 = 1 :=
  ⟨(unregister_checks_in_order emptyStore "Chess Club" "a@b.edu").1 (by decide),
   ((unregister_checks_in_order ⟨[⟨"A", "d", "sch", 2⟩], [⟨"x@e", "A"⟩]⟩ "A" "x@e").2.2
     ⟨"A", "d", "sch", 2⟩ ⟨"x@e", "A"⟩ (by decide) (by decide)).1,
   ((unregister_checks_in_order ⟨[⟨"A", "d", "sch", 2⟩], [⟨"x@e", "A"⟩]⟩ "A" "x@e").2.2
     ⟨"A", "d", "sch", 2⟩ ⟨"x@e", "A"⟩ (by decide) (by decide)).2⟩

/-- C5: atomicity on failure — whenever `signup_for_activity` or
`unregister_from_activity` returns an error (404 or 400), the store
after the call equals the store before the call: no partial mutation is
observable. -/
theorem error_preserves_state (s : Store) (activity_name email : String) (e : HTTPError) :
    ((signup_for_activity s activity_name email).2 = .error e →
      (signup_for_activity s activity_name email).1 = s)
  ∧ ((unregister_from_activity s activity_name email).2 = .error e →
      (unregister_from_activity s activity_name email).1 = s) := by
  constructor
  · unfold signup_for_activity
    split
    · intro _; rfl
    · split
      · intro _; rfl
      · split
        · intro _; rfl
        · intro hcontra
          exact absurd hcontra (by simp)
  · unfold unregister_from_activity
    split
    · intro _; rfl
    · split
      · intro _; rfl
      · intro hcontra
        exact absurd hcontra (by simp)

/-- Witness for C5: a 404 signup and a 404 unregister on the empty store
leave it unchanged. -/
theorem error_preserves_state_witness :
    (signup_for_activity emptyStore "Chess Club" "a@b.edu").1 = emptyStore
  ∧ (unregister_from_activity emptyStore "Chess Club" "a@b.edu").1 = emptyStore :=
  ⟨(error_preserves_state emptyStore "Chess Club" "a@b.edu"
      ⟨404, "Activity not found"⟩).1 (by decide),
   (error_preserves_state emptyStore "Chess Club" "a@b.edu"
      ⟨404, "Activity not found"⟩).2 (by decide)⟩

theorem seed_database_of_nil {s : Store} (h : s.activities = []) :
    (seed_database s).activities = SEED_ACTIVITIES.map Prod.fst := by
  unfold seed_database
  rw [h]

/-- C7: seeding is idempotent — running `seed_database` twice from any
starting state equals running it once, and on a store that already
contains at least one activity it is a no-op. -/
theorem seed_idempotent (s : Store) :
    seed_database (seed_database s) = seed_database s
  ∧ (s.activities ≠ [] → seed_database s = s) := by
  constructor
  · apply seed_database_of_ne_nil
    by_cases h : s.activities = []
    · rw [seed_database_of_nil h]
      decide
    · rw [seed_database_of_ne_nil h]
      exact h
  · exact seed_database_of_ne_nil

/-- Witness for C7: seeding the already-seeded store and seeding a store
with one activity are both no-ops. -/
theorem seed_idempotent_witness :
    seed_database (seed_database emptyStore) = seed_database emptyStore
  ∧ seed_database ⟨[⟨"A", "d", "sch", 2⟩], []⟩ = ⟨[⟨"A", "d", "sch", 2⟩], []⟩ :=
  ⟨(seed_idempotent emptyStore).1,
   (seed_idempotent ⟨[⟨"A", "d", "sch", 2⟩], []⟩).2 (by decide)⟩

/-- C8: `get_activities` maps every activity's name to exactly the view
{description, schedule, max_participants, participants}, where
`participants` is the activity's roster (emails of its participant rows
in insertion order), and on every reachable store no returned roster is
longer than the activity's `max_participants`. -/
theorem get_activities_spec {s : Store} (h : Reachable s) :
    (get_activities s).map Prod.fst = s.activities.map (fun a => a.name)
  ∧ ∀ a ∈ s.activities,
      (a.name, { description := a.description, schedule := a.schedule,
                 max_participants := a.max_participants,
                 participants := roster s a.name }) ∈ get_activities s
      ∧ ((roster s a.name).length : Int) ≤ a.max_participants := by
  refine ⟨?_, ?_⟩
  · unfold get_activities
    rw [List.map_map]
    rfl
  · intro a ha
    constructor
    · unfold get_activities activity_to_dict
      exact List.mem_map.mpr ⟨a, ha, rfl⟩
    · have hlen : (roster s a.name).length = countFor s a.name := by
        unfold roster countFor
        rw [List.length_map]
      rw [hlen]
      exact (reachable_inv h).capacity a ha

/-- Witness for C8: on the seeded store the keys are the activity names
and Chess Club's entry carries its roster, within capacity 12. -/
theorem get_activities_spec_witness :
    (get_activities seededStore).map Prod.fst
      = seededStore.activities.map (fun a => a.name)
  ∧ ("Chess Club",
      { description := "Learn strategies and compete in chess tournaments",
        schedule := "Fridays, 3:30 PM - 5:00 PM",
        max_participants := 12,
        participants := roster seededStore "Chess Club" }) ∈ get_activities seededStore
  ∧ ((roster seededStore "Chess Club").length : Int) ≤ 12 :=
  ⟨(get_activities_spec (Reachable.seed Reachable.empty)).1,
   ((get_activities_spec (Reachable.seed Reachable.empty)).2
     ⟨"Chess Club", "Learn strategies and compete in chess tournaments",
      "Fridays, 3:30 PM - 5:00 PM", 12⟩ (by decide)).1,
   ((get_activities_spec (Reachable.seed Reachable.empty)).2
     ⟨"Chess Club", "Learn strategies and compete in chess tournaments",
      "Fridays, 3:30 PM - 5:00 PM", 12⟩ (by decide)).2⟩

/-- C9 counterexample: `signup_for_activity` does not validate the email
for non-emptiness — signing up the empty email to Chess Club on the
seeded store succeeds and inserts a participant row with empty email. -/
theorem signup_empty_email_counterexample :
    (⟨"", "Chess Club"⟩ : Participant)
      ∈ ((signup_for_activity seededStore "Chess Club" "").1).participants
  ∧ (signup_for_activity seededStore "Chess Club" "").2
      = .ok "Signed up  for Chess Club" := by
  constructor
  · decide
  · decide

/-- C9 amended: `signup_for_activity` performs no email validation at
all; whenever the activity exists, the empty email is not yet enrolled,
and the activity has a free slot, signing up the empty string succeeds
and inserts an enrollment whose email is the empty string. -/
theorem signup_accepts_empty_email (s : Store) (activity_name : String) (a : Activity)
    (ha : getActivity s activity_name = some a)
    (hnone : findEnrollment s activity_name "" = none)
    (hcap : (countFor s activity_name : Int) < a.max_participants) :
    (signup_for_activity s activity_name "").1.participants
      = s.participants ++ [⟨"", activity_name⟩]
  ∧ (signup_for_activity s activity_name "").2
      = .ok ("Signed up " ++ "" ++ " for " ++ activity_name) := by
  simp only [signup_for_activity, ha, hnone]
  rw [if_neg (not_le.mpr hcap)]
  exact ⟨rfl, rfl⟩

/-- Witness for C9 (amended): the empty email signs up to Chess Club on
the seeded store. -/
theorem signup_accepts_empty_email_witness :
    (signup_for_activity seededStore "Chess Club" "").1.participants
      = seededStore.participants ++ [⟨"", "Chess Club"⟩]
  ∧ (signup_for_activity seededStore "Chess Club" "").2
      = .ok ("Signed up " ++ "" ++ " for " ++ "Chess Club") :=
  signup_accepts_empty_email seededStore "Chess Club"
    ⟨"Chess Club", "Learn strategies and compete in chess tournaments",
     "Fridays, 3:30 PM - 5:00 PM", 12⟩ (by decide) (by decide) (by decide)

theorem roster_snoc_ne (s : Store) (q : Participant) (n : String)
    (h : q.activity_name ≠ n) :
    roster { s with participants := s.participants ++ [q] } n = roster s n := by
  unfold roster
  rw [show ({ s with participants := s.participants ++ [q] } : Store).participants
        = s.participants ++ [q] from rfl]
  rw [List.filter_append]
  have hq : List.filter (fun p => p.activity_name == n) [q] = [] := by
    simp [h]
  rw [hq, List.append_nil]

theorem filter_eraseP_of_excl (f g : Participant → Bool)
    (h : ∀ x, f x = true → g x = false) :
    ∀ l : List Participant, (l.eraseP f).filter g = l.filter g := by
  intro l
  induction l with
  | nil => rfl
  | cons x xs ih =>
    by_cases hf : f x = true
    · rw [List.eraseP_cons_of_pos hf, List.filter_cons_of_neg (by simp [h x hf])]
    · rw [List.eraseP_cons_of_neg (by simp [hf])]
      by_cases hg : g x = true
      · rw [List.filter_cons_of_pos hg, List.filter_cons_of_pos hg, ih]
      · rw [List.filter_cons_of_neg (by simpa using hg),
            List.filter_cons_of_neg (by simpa using hg), ih]

/-- C10: frame property — a successful signup changes the store only by
appending the one row (email, activity_name): the catalog is unchanged
and the roster of every other activity is unchanged.  A successful
unregister changes the store only by removing the one matching row:
the catalog is unchanged and the roster of every other activity is
unchanged. -/
theorem mutation_frame (s : Store) (activity_name email : String) :
    (∀ s' m, signup_for_activity s activity_name email = (s', .ok m) →
      s'.activities = s.activities
      ∧ s'.participants = s.participants ++ [⟨email, activity_name⟩]
      ∧ ∀ n, n ≠ activity_name → roster s' n = roster s n)
  ∧ (∀ s' m, unregister_from_activity s activity_name email = (s', .ok m) →
      s'.activities = s.activities
      ∧ s'.participants = s.participants.eraseP (fun q => q.activity_name == activity_name && q.email == email)
      ∧ ∀ n, n ≠ activity_name → roster s' n = roster s n) := by
  constructor
  · intro s' m hok
    unfold signup_for_activity at hok
    split at hok
    · exact absurd hok (by simp)
    · split at hok
      · exact absurd hok (by simp)
      · split at hok
        · exact absurd hok (by simp)
        · have hs : s' = { s with participants := s.participants ++ [⟨email, activity_name⟩] } := by
            have := congrArg Prod.fst hok
            simpa using this.symm
          subst hs
          refine ⟨rfl, rfl, ?_⟩
          intro n hn
          exact roster_snoc_ne s ⟨email, activity_name⟩ n (Ne.symm hn)
  · intro s' m hok
    unfold unregister_from_activity at hok
    split at hok
    · exact absurd hok (by simp)
    · split at hok
      · exact absurd hok (by simp)
      · have hs : s' = { s with participants := s.participants.eraseP (fun q => q.activity_name == activity_name && q.email == email) } := by
          have := congrArg Prod.fst hok
          simpa using this.symm
        subst hs
        refine ⟨rfl, rfl, ?_⟩
        intro n hn
        unfold roster
        rw [show ({ s with participants := s.participants.eraseP (fun q => q.activity_name == activity_name && q.email == email) } : Store).participants
              = s.participants.eraseP (fun q => q.activity_name == activity_name && q.email == email) from rfl]
        rw [filter_eraseP_of_excl _ _ ?_ s.participants]
        intro x hx
        simp only [Bool.and_eq_true, beq_iff_eq] at hx
        simp only [beq_eq_false_iff_ne, ne_eq]
        rw [hx.1]
        exact Ne.symm hn

/-- Witness for C10: the successful signup and unregister of the C1/C4
witnesses leave the catalog and the roster of another activity "B"
unchanged. -/
theorem mutation_frame_witness :
    ((⟨[⟨"A", "d", "sch", 2⟩], [⟨"x@e", "A"⟩]⟩ : Store).activities
        = (⟨[⟨"A", "d", "sch", 2⟩], []⟩ : Store).activities
      ∧ (⟨[⟨"A", "d", "sch", 2⟩], [⟨"x@e", "A"⟩]⟩ : Store).participants
        = (⟨[⟨"A", "d", "sch", 2⟩], []⟩ : Store).participants ++ [⟨"x@e", "A"⟩]
      ∧ roster ⟨[⟨"A", "d", "sch", 2⟩], [⟨"x@e", "A"⟩]⟩ "B"
        = roster ⟨[⟨"A", "d", "sch", 2⟩], []⟩ "B")
  ∧ ((⟨[⟨"A", "d", "sch", 2⟩], []⟩ : Store).activities
        = (⟨[⟨"A", "d", "sch", 2⟩], [⟨"x@e", "A"⟩]⟩ : Store).activities
      ∧ (⟨[⟨"A", "d", "sch", 2⟩], []⟩ : Store).participants
        = (⟨[⟨"A", "d", "sch", 2⟩], [⟨"x@e", "A"⟩]⟩ : Store).participants.eraseP
            (fun q => q.activity_name == "A" && q.email == "x@e")
      ∧ roster ⟨[⟨"A", "d", "sch", 2⟩], []⟩ "B"
        = roster ⟨[⟨"A", "d", "sch", 2⟩], [⟨"x@e", "A"⟩]⟩ "B") := by
  constructor
  · have h := (mutation_frame ⟨[⟨"A", "d", "sch", 2⟩], []⟩ "A" "x@e").1
      ⟨[⟨"A", "d", "sch", 2⟩], [⟨"x@e", "A"⟩]⟩ "Signed up x@e for A" (by decide)
    exact ⟨h.1, h.2.1, h.2.2 "B" (by decide)⟩
  · have h := (mutation_frame ⟨[⟨"A", "d", "sch", 2⟩], [⟨"x@e", "A"⟩]⟩ "A" "x@e").2
      ⟨[⟨"A", "d", "sch", 2⟩], []⟩ "Unregistered x@e from A" (by decide)
    exact ⟨h.1, h.2.1, h.2.2 "B" (by decide)⟩

end Mergington
